/-
Verification of the Inko social-feed backend (src/app.py) against its
specification.  The handlers are embedded shallowly: the database is an
explicit record of tables (lists of rows), each Flask handler becomes a
pure function from a request and a database state to a response value and
a new database state.  SQL statements are translated row-by-row:
`SELECT ... WHERE` becomes `List.find?`/`List.filter`, `INSERT` appends a
row with a server-assigned serial id, `UPDATE` maps over the table,
`ORDER BY ... DESC LIMIT n` becomes a sort followed by `List.take`.
SHA-256 (`hash_password`) is abstracted as a function parameter
`hash : String → String`; no claim depends on properties of the digest
beyond equality of strings.  Python `str.strip()` is modelled by
`strip` below, Python slicing `s[:500]` by `takeChars`, and Python
truthiness of JSON id fields (absent, `None` or `0` are all falsy) by
`truthyId` on `Option Nat`.
-/
import Mathlib

namespace Inko

/-- A row of the `users` table.  `bio` and `profile_pic` are nullable
columns with `NULL` default. -/
structure User where
  id : Nat
  username : String
  password : String
  bio : Option String
  profile_pic : Option String
  created_at : Int
deriving Repr, DecidableEq

/-- A row of the `posts` table. -/
structure Post where
  id : Nat
  user_id : Nat
  media_url : String
  created_at : Int
deriving Repr, DecidableEq

/-- A row of the `likes` table (the code selects its `id` column). -/
structure Like where
  id : Nat
  user_id : Nat
  post_id : Nat
deriving Repr, DecidableEq

/-- A row of the `comments` table. -/
structure Comment where
  id : Nat
  user_id : Nat
  post_id : Nat
  text : String
  created_at : Int
deriving Repr, DecidableEq

/-- A row of the `follows` table (the code selects its `id` column). -/
structure Follow where
  id : Nat
  follower_id : Nat
  following_id : Nat
deriving Repr, DecidableEq

/-- The notification type enum: `'like'`, `'comment'`, `'follow'`. -/
inductive NotifType where
  | like
  | comment
  | follow
deriving Repr, DecidableEq

/-- A row of the `notifications` table.  `user_id` is the recipient,
`from_user_id` the actor; `post_id` is nullable; `read` defaults to
`FALSE`. -/
structure Notification where
  id : Nat
  user_id : Nat
  from_user_id : Nat
  type : NotifType
  post_id : Option Nat
  read : Bool
  created_at : Int
deriving Repr, DecidableEq

/-- The whole database: the six tables plus the serial-id counters
(Postgres `SERIAL` columns start at 1). -/
structure DB where
  users : List User
  posts : List Post
  likes : List Like
  comments : List Comment
  follows : List Follow
  notifications : List Notification
  nextUserId : Nat
  nextPostId : Nat
  nextLikeId : Nat
  nextCommentId : Nat
  nextFollowId : Nat
  nextNotifId : Nat
deriving Repr, DecidableEq

/-- The empty database a fresh deployment starts from. -/
def initDB : DB :=
  { users := [], posts := [], likes := [], comments := [], follows := []
  , notifications := []
  , nextUserId := 1, nextPostId := 1, nextLikeId := 1, nextCommentId := 1
  , nextFollowId := 1, nextNotifId := 1 }

/-- Python truthiness of a JSON id field: `data.get('x')` yields `None`
when absent, and `if not x:` treats both `None` and `0` as falsy. -/
def truthyId : Option Nat → Bool
  | none => false
  | some n => n != 0

/-- Python `str.strip()`: remove leading and trailing whitespace
characters (modelled for ASCII whitespace via `Char.isWhitespace`). -/
def strip (s : String) : String :=
  ⟨(((s.data.dropWhile Char.isWhitespace).reverse.dropWhile
      Char.isWhitespace).reverse)⟩

/-- Python slicing `s[:n]`: the first `n` code points of `s`. -/
def takeChars (n : Nat) (s : String) : String :=
  ⟨s.data.take n⟩

/-- The public projection of a user row, as produced by the
`RETURNING id, username, bio, profile_pic, created_at` clause of signup
and by login after `del user_dict['password']`.  By construction this
record has no password / hash field. -/
structure PublicUser where
  id : Nat
  username : String
  bio : Option String
  profile_pic : Option String
  created_at : Int
deriving Repr, DecidableEq

/-- Outcome of `POST /api/auth/signup`. -/
inductive SignupResult where
  | missingFields
  | badUsernameLength
  | badPasswordLength
  | usernameExists
  | ok (user : PublicUser)
deriving Repr, DecidableEq

/-- HTTP status code of a signup response. -/
def SignupResult.status : SignupResult → Nat
  | .missingFields => 400
  | .badUsernameLength => 400
  | .badPasswordLength => 400
  | .usernameExists => 400
  | .ok _ => 200

/-- The `error` field of a signup response body (none on success). -/
def SignupResult.errorMsg : SignupResult → Option String
  | .missingFields => some "Missing required fields"
  | .badUsernameLength => some "Username must be 3-30 characters"
  | .badPasswordLength => some "Password must be at least 6 characters"
  | .usernameExists => some "Username already exists"
  | .ok _ => none

/-- A signup response that the spec taxonomy classifies as a
`ValidationError` (missing/malformed fields, status 400). -/
def SignupResult.isValidationError : SignupResult → Bool
  | .missingFields => true
  | .badUsernameLength => true
  | .badPasswordLength => true
  | .ok _ => false
  | .usernameExists => false

/-- `signup` handler (src/app.py lines 46-90).  Strips the username,
checks the required-field, length and uniqueness conditions in source
order, then inserts the user with the hashed password and returns the
public fields. -/
def signup (hash : String → String) (db : DB) (usernameRaw password : String)
    (now : Int) : SignupResult × DB :=
  let username := strip usernameRaw
  if username = "" ∨ password = "" then (.missingFields, db)
  else if username.length < 3 ∨ username.length > 30 then
    (.badUsernameLength, db)
  else if password.length < 6 then (.badPasswordLength, db)
  else if (db.users.find? (fun u => u.username == username)).isSome then
    (.usernameExists, db)
  else
    let u : User :=
      { id := db.nextUserId, username := username, password := hash password
      , bio := none, profile_pic := none, created_at := now }
    (.ok { id := u.id, username := u.username, bio := u.bio
         , profile_pic := u.profile_pic, created_at := u.created_at }
    , { db with users := db.users ++ [u], nextUserId := db.nextUserId + 1 })

/-- Outcome of `POST /api/auth/login`. -/
inductive LoginResult where
  | missingFields
  | invalidCredentials
  | ok (user : PublicUser)
deriving Repr, DecidableEq

/-- HTTP status code of a login response. -/
def LoginResult.status : LoginResult → Nat
  | .missingFields => 400
  | .invalidCredentials => 401
  | .ok _ => 200

/-- The `error` field of a login response body (none on success). -/
def LoginResult.errorMsg : LoginResult → Option String
  | .missingFields => some "Missing required fields"
  | .invalidCredentials => some "Invalid credentials"
  | .ok _ => none

/-- `login` handler (src/app.py lines 92-127).  Strips the username,
checks required fields, fetches the first row with that exact username
(`fetchone`), and compares the stored hash with the hash of the supplied
password; both the absent-user and the wrong-password case return the
single `Invalid credentials` / 401 response. -/
def login (hash : String → String) (db : DB) (usernameRaw password : String) :
    LoginResult :=
  let username := strip usernameRaw
  if username = "" ∨ password = "" then .missingFields
  else
    match db.users.find? (fun u => u.username == username) with
    | none => .invalidCredentials
    | some u =>
        if u.password ≠ hash password then .invalidCredentials
        else .ok { id := u.id, username := u.username, bio := u.bio
                 , profile_pic := u.profile_pic, created_at := u.created_at }

/-- The failure condition of login as the claims state it: either no user
row carries the (stripped) username, or the first such row's stored hash
differs from the hash of the supplied password. -/
def loginRejects (hash : String → String) (db : DB) (uname pw : String) :
    Prop :=
  ∀ u, db.users.find? (fun x => x.username == strip uname) = some u →
    u.password ≠ hash pw

/-- Decidability of `loginRejects`, by evaluating the user lookup. -/
instance loginRejectsDec (hash : String → String) (db : DB)
    (uname pw : String) : Decidable (loginRejects hash db uname pw) :=
  match h : db.users.find? (fun x => x.username == strip uname) with
  | none =>
      isTrue (fun u hu => by
        rw [h] at hu
        exact Option.noConfusion hu)
  | some v =>
      if hv : v.password = hash pw then
        isFalse (fun hrej => hrej v h hv)
      else
        isTrue (fun u hu => by
          rw [h] at hu
          exact (Option.some.inj hu) ▸ hv)

/-- Does a like row for `(user_id, post_id)` exist? (the `SELECT id FROM
likes WHERE user_id = %s AND post_id = %s` existence check). -/
def likeRowExists (db : DB) (uid pid : Nat) : Bool :=
  db.likes.any (fun l => l.user_id == uid && l.post_id == pid)

/-- Outcome of `POST /api/post/like`. -/
inductive LikeResult where
  | missingFields
  | ok (liked : Bool)
deriving Repr, DecidableEq

/-- HTTP status code of a like response. -/
def LikeResult.status : LikeResult → Nat
  | .missingFields => 400
  | .ok _ => 200

/-- `like_post` handler (src/app.py lines 212-258).  Checks the id
fields, then toggles: if a like row exists it is deleted (`liked=False`);
otherwise a row is inserted and, when the post-owner lookup finds a row
whose `user_id` differs from the actor, a `'like'` notification is
inserted for the owner (`liked=True`). -/
def like_post (db : DB) (user_id post_id : Option Nat) (now : Int) :
    LikeResult × DB :=
  if ¬ truthyId user_id ∨ ¬ truthyId post_id then (.missingFields, db)
  else
    let uid := user_id.getD 0
    let pid := post_id.getD 0
    if likeRowExists db uid pid then
      (.ok false
      , { db with likes :=
            db.likes.filter (fun l => !(l.user_id == uid && l.post_id == pid)) })
    else
      let row : Like := { id := db.nextLikeId, user_id := uid, post_id := pid }
      let db1 :=
        { db with
            likes := db.likes ++ [row],
            nextLikeId := db.nextLikeId + 1 }
      match db1.posts.find? (fun p => p.id == pid) with
      | some owner =>
          if owner.user_id ≠ uid then
            let notif : Notification :=
              { id := db1.nextNotifId, user_id := owner.user_id,
                from_user_id := uid, type := .like, post_id := some pid,
                read := false, created_at := now }
            (.ok true,
             { db1 with
                 notifications := db1.notifications ++ [notif],
                 nextNotifId := db1.nextNotifId + 1 })
          else (.ok true, db1)
      | none => (.ok true, db1)

/-- The part of the created comment returned to the client: the `RETURNING
id, created_at` clause only yields the new row's id and timestamp. -/
structure CreatedComment where
  id : Nat
  created_at : Int
deriving Repr, DecidableEq

/-- Outcome of `POST /api/post/comment`. -/
inductive CommentResult where
  | missingFields
  | ok (comment : CreatedComment)
deriving Repr, DecidableEq

/-- HTTP status code of a comment response. -/
def CommentResult.status : CommentResult → Nat
  | .missingFields => 400
  | .ok _ => 200

/-- `add_comment` handler (src/app.py lines 260-302).  Strips the text,
checks the id fields and that the text is non-empty, inserts the comment
with the text truncated to its first 500 characters, then inserts a
`'comment'` notification when the post-owner lookup finds a row whose
`user_id` differs from the actor. -/
def add_comment (db : DB) (user_id post_id : Option Nat) (textRaw : String)
    (now : Int) : CommentResult × DB :=
  let text := strip textRaw
  if ¬ truthyId user_id ∨ ¬ truthyId post_id ∨ text = "" then
    (.missingFields, db)
  else
    let uid := user_id.getD 0
    let pid := post_id.getD 0
    let c : Comment :=
      { id := db.nextCommentId, user_id := uid, post_id := pid,
        text := takeChars 500 text, created_at := now }
    let db1 :=
      { db with
          comments := db.comments ++ [c],
          nextCommentId := db.nextCommentId + 1 }
    let res : CommentResult := .ok { id := c.id, created_at := c.created_at }
    match db1.posts.find? (fun p => p.id == pid) with
    | some owner =>
        if owner.user_id ≠ uid then
          let notif : Notification :=
            { id := db1.nextNotifId, user_id := owner.user_id,
              from_user_id := uid, type := .comment, post_id := some pid,
              read := false, created_at := now }
          (res,
           { db1 with
               notifications := db1.notifications ++ [notif],
               nextNotifId := db1.nextNotifId + 1 })
        else (res, db1)
    | none => (res, db1)

/-- Outcome of `POST /api/follow`. -/
inductive FollowResult where
  | missingFields
  | cannotFollowSelf
  | ok (followed : Bool)
deriving Repr, DecidableEq

/-- HTTP status code of a follow response. -/
def FollowResult.status : FollowResult → Nat
  | .missingFields => 400
  | .cannotFollowSelf => 400
  | .ok _ => 200

/-- The `error` field of a follow response body (none on success). -/
def FollowResult.errorMsg : FollowResult → Option String
  | .missingFields => some "Missing required fields"
  | .cannotFollowSelf => some "Cannot follow yourself"
  | .ok _ => none

/-- `toggle_follow` handler (src/app.py lines 341-387).  Checks the id
fields, rejects `follower_id == following_id` before touching the
database, then toggles the follow edge; on insert it unconditionally
inserts a `'follow'` notification for the followed user. -/
def toggle_follow (db : DB) (follower_id following_id : Option Nat)
    (now : Int) : FollowResult × DB :=
  if ¬ truthyId follower_id ∨ ¬ truthyId following_id then
    (.missingFields, db)
  else if follower_id = following_id then (.cannotFollowSelf, db)
  else
    let fid := follower_id.getD 0
    let gid := following_id.getD 0
    if db.follows.any (fun f => f.follower_id == fid && f.following_id == gid)
    then
      (.ok false,
       { db with
           follows :=
             db.follows.filter
               (fun f => !(f.follower_id == fid && f.following_id == gid)) })
    else
      let edge : Follow :=
        { id := db.nextFollowId, follower_id := fid, following_id := gid }
      let notif : Notification :=
        { id := db.nextNotifId, user_id := gid, from_user_id := fid,
          type := .follow, post_id := none, read := false, created_at := now }
      (.ok true,
       { db with
           follows := db.follows ++ [edge],
           nextFollowId := db.nextFollowId + 1,
           notifications := db.notifications ++ [notif],
           nextNotifId := db.nextNotifId + 1 })

/-- Outcome of `POST /api/notification/read`. -/
inductive MarkReadResult where
  | unauthorized
  | ok
deriving Repr, DecidableEq

/-- HTTP status code of a mark-read response. -/
def MarkReadResult.status : MarkReadResult → Nat
  | .unauthorized => 401
  | .ok => 200

/-- `mark_notification_read` handler (src/app.py lines 531-562).  With a
truthy `notification_id` it runs `UPDATE notifications SET read = TRUE
WHERE id = %s AND user_id = %s`; otherwise `... WHERE user_id = %s`. -/
def mark_notification_read (db : DB) (user_id notification_id : Option Nat) :
    MarkReadResult × DB :=
  if ¬ truthyId user_id then (.unauthorized, db)
  else
    let uid := user_id.getD 0
    if truthyId notification_id then
      let nid := notification_id.getD 0
      (.ok,
       { db with notifications :=
            db.notifications.map (fun n =>
              if n.id == nid && n.user_id == uid then { n with read := true }
              else n) })
    else
      (.ok,
       { db with notifications :=
            db.notifications.map (fun n =>
              if n.user_id == uid then { n with read := true } else n) })

/-- `Modelled from the spec:` post creation is "implied elsewhere" (spec
§2, §3) but no handler for it appears in src/app.py; a Post row simply
comes into existence with an owner, a media reference and a server
timestamp.  Needed only so that reachable states can contain posts. -/
def create_post (db : DB) (uid : Nat) (media : String) (now : Int) : DB :=
  let p : Post :=
    { id := db.nextPostId, user_id := uid, media_url := media,
      created_at := now }
  { db with
      posts := db.posts ++ [p],
      nextPostId := db.nextPostId + 1 }

/-- The relation realising `ORDER BY p.created_at DESC`: `a` may come
before `b` when `b.created_at ≤ a.created_at`. -/
def newestFirst (a b : Post) : Prop :=
  b.created_at ≤ a.created_at

instance : DecidableRel newestFirst := fun a b =>
  inferInstanceAs (Decidable (b.created_at ≤ a.created_at))

instance : IsTotal Post newestFirst :=
  ⟨fun a b => le_total b.created_at a.created_at⟩

instance : IsTrans Post newestFirst :=
  ⟨fun _ _ _ h1 h2 => le_trans h2 h1⟩

/-- One row of the feed response: the post joined with its author and
annotated with like/comment counts and the list of liker ids. -/
structure FeedItem where
  post : Post
  username : String
  user_profile_pic : Option String
  likes_count : Nat
  comments_count : Nat
  likes : List Nat
deriving Repr, DecidableEq

/-- The correlated subqueries and the `JOIN users` columns of the feed
query, applied to one post row. -/
def annotate (db : DB) (p : Post) : FeedItem :=
  { post := p
  , username :=
      ((db.users.find? (fun u => u.id == p.user_id)).map (·.username)).getD ""
  , user_profile_pic :=
      (db.users.find? (fun u => u.id == p.user_id)).bind (·.profile_pic)
  , likes_count := (db.likes.filter (fun l => l.post_id == p.id)).length
  , comments_count := (db.comments.filter (fun c => c.post_id == p.id)).length
  , likes := (db.likes.filter (fun l => l.post_id == p.id)).map (·.user_id) }

/-- The `WHERE p.user_id IN (SELECT following_id FROM follows WHERE
follower_id = %s UNION SELECT %s)` membership test together with the
inner `JOIN users u ON p.user_id = u.id` (which drops posts whose author
has no users row). -/
def feedPosts (db : DB) (uid : Nat) : List Post :=
  db.posts.filter (fun p =>
    (p.user_id == uid ||
      db.follows.any (fun f => f.follower_id == uid && f.following_id == p.user_id))
    && db.users.any (fun u => u.id == p.user_id))

/-- `get_feed` handler (src/app.py lines 131-173) for a truthy `user_id`:
the authorized posts, ordered newest first, limited to 50, annotated. -/
def get_feed (db : DB) (uid : Nat) : List FeedItem :=
  ((List.insertionSort newestFirst (feedPosts db uid)).take 50).map
    (annotate db)

/-- A single state transition of the backend: one successful-or-failed
request handled by any of the mutating handlers (read-only handlers do
not change the database), plus spec-modelled post creation. -/
inductive Step : DB → DB → Prop where
  | signup (hash : String → String) (u p : String) (now : Int) (db : DB) :
      Step db (Inko.signup hash db u p now).2
  | createPost (uid : Nat) (media : String) (now : Int) (db : DB) :
      Step db (create_post db uid media now)
  | like (user_id post_id : Option Nat) (now : Int) (db : DB) :
      Step db (like_post db user_id post_id now).2
  | comment (user_id post_id : Option Nat) (t : String) (now : Int) (db : DB) :
      Step db (add_comment db user_id post_id t now).2
  | follow (follower_id following_id : Option Nat) (now : Int) (db : DB) :
      Step db (toggle_follow db follower_id following_id now).2
  | markRead (user_id notification_id : Option Nat) (db : DB) :
      Step db (mark_notification_read db user_id notification_id).2

/-- The invariant: no notification has its recipient equal to its actor. -/
def notifSelfFree (db : DB) : Prop :=
  ∀ n ∈ db.notifications, n.user_id ≠ n.from_user_id

/-- The states reachable from a fresh deployment by any sequence of
requests. -/
inductive Reachable : DB → Prop where
  | init : Reachable initDB
  | step {db db' : DB} : Reachable db → Step db db' → Reachable db'

/-- The per-row effect stated by the claim: only the `read` flag may
change, and it becomes true exactly on the rows satisfying `cond`. -/
def readFlipOnly (cond : Notification → Bool) (n m : Notification) : Prop :=
  m.id = n.id ∧ m.user_id = n.user_id ∧ m.from_user_id = n.from_user_id ∧
  m.type = n.type ∧ m.post_id = n.post_id ∧ m.created_at = n.created_at ∧
  m.read = (if cond n then true else n.read)

example :
    (signup (fun s => s ++ "#") initDB " alice " "secret1" 5).1 =
      .ok { id := 1, username := "alice", bio := none, profile_pic := none
          , created_at := 5 } := by decide

example :
    login (fun s => s ++ "#")
      (signup (fun s => s ++ "#") initDB "alice" "secret1" 5).2
      "alice" "wrong" = .invalidCredentials := by decide


/-! ### Helper lemmas about `like_post` -/

theorem like_post_tables_fixed (db : DB) (a b : Option Nat) (now : Int) :
    (like_post db a b now).2.users = db.users ∧
    (like_post db a b now).2.posts = db.posts ∧
    (like_post db a b now).2.comments = db.comments ∧
    (like_post db a b now).2.follows = db.follows := by
  unfold like_post
  split
  · exact ⟨rfl, rfl, rfl, rfl⟩
  · dsimp only
    split
    · exact ⟨rfl, rfl, rfl, rfl⟩
    · split
      · split
        · exact ⟨rfl, rfl, rfl, rfl⟩
        · exact ⟨rfl, rfl, rfl, rfl⟩
      · exact ⟨rfl, rfl, rfl, rfl⟩

theorem like_post_unlike (db : DB) (uid pid : Nat) (now : Int)
    (huid : uid ≠ 0) (hpid : pid ≠ 0)
    (h : likeRowExists db uid pid = true) :
    like_post db (some uid) (some pid) now =
      (.ok false,
       { db with likes :=
           db.likes.filter (fun l => !(l.user_id == uid && l.post_id == pid)) }) := by
  simp [like_post, truthyId, huid, hpid, h]


theorem like_post_like (db : DB) (uid pid : Nat) (now : Int)
    (huid : uid ≠ 0) (hpid : pid ≠ 0)
    (h : likeRowExists db uid pid = false) :
    (like_post db (some uid) (some pid) now).1 = .ok true ∧
    (like_post db (some uid) (some pid) now).2.likes =
      db.likes ++ [{ id := db.nextLikeId, user_id := uid, post_id := pid }] ∧
    (like_post db (some uid) (some pid) now).2.nextLikeId = db.nextLikeId + 1 := by
  rcases hfind : db.posts.find? (fun p => p.id == pid) with _ | owner
  · simp [like_post, truthyId, huid, hpid, h, hfind]
  · by_cases howner : owner.user_id = uid
    · simp [like_post, truthyId, huid, hpid, h, hfind, howner]
    · simp [like_post, truthyId, huid, hpid, h, hfind, howner]

theorem like_post_notifications_unchanged (db : DB) (a b : Option Nat)
    (now : Int)
    (h : ∀ owner, db.posts.find? (fun p => p.id == b.getD 0) = some owner →
        owner.user_id = a.getD 0) :
    (like_post db a b now).2.notifications = db.notifications := by
  unfold like_post
  split
  · rfl
  · dsimp only
    split
    · rfl
    · rcases hfind : db.posts.find? (fun p => p.id == b.getD 0) with _ | owner
      · simp [hfind]
      · have howner := h owner hfind
        simp [hfind, howner]

theorem like_post_notif_self_free (db : DB) (a b : Option Nat) (now : Int)
    (n : Notification)
    (hn : n ∈ (like_post db a b now).2.notifications) :
    n ∈ db.notifications ∨ n.user_id ≠ n.from_user_id := by
  unfold like_post at hn
  split at hn
  · exact Or.inl hn
  · dsimp only at hn
    split at hn
    · exact Or.inl hn
    · rcases hfind : db.posts.find? (fun p => p.id == b.getD 0) with _ | owner
      · rw [hfind] at hn
        exact Or.inl hn
      · rw [hfind] at hn
        dsimp only at hn
        by_cases howner : owner.user_id = a.getD 0
        · rw [if_neg (by simpa using howner)] at hn
          exact Or.inl hn
        · rw [if_pos howner] at hn
          dsimp only at hn
          rcases List.mem_append.mp hn with hmem | hmem
          · exact Or.inl hmem
          · rcases List.mem_singleton.mp hmem with rfl
            exact Or.inr (by simpa using howner)


theorem likeRowExists_iff (db : DB) (u p : Nat) :
    likeRowExists db u p = true ↔
      ∃ l ∈ db.likes, l.user_id = u ∧ l.post_id = p := by
  simp [likeRowExists, List.any_eq_true]


/-- C1: toggling the like of (user_id, post_id) twice in sequence returns
the likes relation to its original state, the returned `liked` booleans
being first the negation and then the restoration of the initial state;
in particular starting from not-liked the first call returns `liked=true`,
the second returns `liked=false` and at the end the likes table equals the
original one, with no like row for (user_id, post_id). -/
theorem toggle_like_twice (db : DB) (uid pid : Nat) (now1 now2 : Int)
    (huid : uid ≠ 0) (hpid : pid ≠ 0) :
    (like_post db (some uid) (some pid) now1).1 =
      .ok (!(likeRowExists db uid pid)) ∧
    (like_post ((like_post db (some uid) (some pid) now1).2)
        (some uid) (some pid) now2).1 = .ok (likeRowExists db uid pid) ∧
    (∀ u p,
      likeRowExists
        (like_post ((like_post db (some uid) (some pid) now1).2)
          (some uid) (some pid) now2).2 u p = true ↔
        likeRowExists db u p = true) ∧
    (likeRowExists db uid pid = false →
      (like_post ((like_post db (some uid) (some pid) now1).2)
        (some uid) (some pid) now2).2.likes = db.likes ∧
      likeRowExists
        (like_post ((like_post db (some uid) (some pid) now1).2)
          (some uid) (some pid) now2).2 uid pid = false) := by
  by_cases hb : likeRowExists db uid pid = true
  · -- initially liked: the first call deletes, the second re-inserts
    have e1 := like_post_unlike db uid pid now1 huid hpid hb
    have hsnd : (like_post db (some uid) (some pid) now1).2 =
        { db with likes :=
            db.likes.filter (fun l => !(l.user_id == uid && l.post_id == pid)) } := by
      rw [e1]
    set dbd : DB :=
      { db with likes :=
          db.likes.filter (fun l => !(l.user_id == uid && l.post_id == pid)) }
      with hdbd
    have h1 : likeRowExists dbd uid pid = false := by
      rw [hdbd, likeRowExists]
      dsimp only
      rw [List.any_filter]
      refine List.any_eq_false.mpr ?_
      intro x _
      cases hmatch : (x.user_id == uid && x.post_id == pid) <;> simp [hmatch]
    obtain ⟨e2a, e2b, _⟩ := like_post_like dbd uid pid now2 huid hpid h1
    rw [hsnd, hb]
    refine ⟨?_, e2a, ?_, ?_⟩
    · rw [e1]
      rfl
    · intro u p
      rw [likeRowExists_iff, likeRowExists_iff, e2b]
      constructor
      · rintro ⟨l, hl, hu, hp⟩
        rcases List.mem_append.mp hl with hl | hl
        · have hl2 : l ∈ db.likes.filter
              (fun x => !(x.user_id == uid && x.post_id == pid)) := hl
          exact ⟨l, (List.mem_filter.mp hl2).1, hu, hp⟩
        · rcases List.mem_singleton.mp hl with rfl
          rcases (likeRowExists_iff db uid pid).mp hb with ⟨x, hx, hxu, hxp⟩
          exact ⟨x, hx, hxu.trans hu, hxp.trans hp⟩
      · rintro ⟨l, hl, hu, hp⟩
        by_cases hup : l.user_id = uid ∧ l.post_id = pid
        · exact ⟨{ id := dbd.nextLikeId, user_id := uid, post_id := pid },
            List.mem_append.mpr (Or.inr (List.mem_singleton.mpr rfl)),
            hup.1.symm.trans hu, hup.2.symm.trans hp⟩
        · refine ⟨l, List.mem_append.mpr (Or.inl ?_), hu, hp⟩
          rw [hdbd]
          refine List.mem_filter.mpr ⟨hl, ?_⟩
          cases h1' : l.user_id == uid <;> cases h2' : l.post_id == pid <;>
            simp_all
    · intro hc
      exact Bool.noConfusion hc
  · -- initially not liked: the first call inserts, the second deletes
    have hb0 : likeRowExists db uid pid = false := by
      cases h : likeRowExists db uid pid
      · rfl
      · exact absurd h hb
    obtain ⟨e1a, e1b, _⟩ := like_post_like db uid pid now1 huid hpid hb0
    set db1 : DB := (like_post db (some uid) (some pid) now1).2 with hdb1
    have h1 : likeRowExists db1 uid pid = true := by
      rw [likeRowExists, e1b]
      simp [List.any_append]
    have e2 := like_post_unlike db1 uid pid now2 huid hpid h1
    have hfix : db.likes.filter
        (fun l => !(l.user_id == uid && l.post_id == pid)) = db.likes := by
      refine List.filter_eq_self.mpr ?_
      intro l hl
      have hnot : ¬(l.user_id = uid ∧ l.post_id = pid) := by
        intro hcontra
        have hmem : likeRowExists db uid pid = true :=
          (likeRowExists_iff db uid pid).mpr ⟨l, hl, hcontra.1, hcontra.2⟩
        rw [hmem] at hb0
        exact Bool.noConfusion hb0
      cases h1' : l.user_id == uid <;> cases h2' : l.post_id == pid <;>
        simp_all
    have hlikes2 : (like_post db1 (some uid) (some pid) now2).2.likes =
        db.likes := by
      rw [e2]
      dsimp only
      rw [e1b, List.filter_append, hfix]
      simp
    rw [hb0, e1a]
    refine ⟨rfl, ?_, ?_, ?_⟩
    · rw [e2]
    · intro u p
      rw [likeRowExists_iff, likeRowExists_iff, hlikes2]
    · intro _
      refine ⟨hlikes2, ?_⟩
      rw [likeRowExists, hlikes2]
      exact hb0


theorem toggle_like_twice_witness :
    (like_post initDB (some 1) (some 2) 10).1 =
      .ok (!(likeRowExists initDB 1 2)) ∧
    (like_post ((like_post initDB (some 1) (some 2) 10).2)
        (some 1) (some 2) 11).1 = .ok (likeRowExists initDB 1 2) ∧
    (∀ u p,
      likeRowExists
        (like_post ((like_post initDB (some 1) (some 2) 10).2)
          (some 1) (some 2) 11).2 u p = true ↔
        likeRowExists initDB u p = true) ∧
    (likeRowExists initDB 1 2 = false →
      (like_post ((like_post initDB (some 1) (some 2) 10).2)
        (some 1) (some 2) 11).2.likes = initDB.likes ∧
      likeRowExists
        (like_post ((like_post initDB (some 1) (some 2) 10).2)
          (some 1) (some 2) 11).2 1 2 = false) :=
  toggle_like_twice initDB 1 2 10 11 (by decide) (by decide)

/-- C10: liking a post id that matches no posts row (and that the user
has not liked) still inserts the like row and reports `liked=true`; the
empty owner lookup suppresses the notification instead of failing. -/
theorem like_post_nonexistent_post (db : DB) (uid pid : Nat) (now : Int)
    (huid : uid ≠ 0) (hpid : pid ≠ 0)
    (hnopost : ∀ p ∈ db.posts, p.id ≠ pid)
    (hnolike : likeRowExists db uid pid = false) :
    (like_post db (some uid) (some pid) now).1 = .ok true ∧
    (like_post db (some uid) (some pid) now).2.likes =
      db.likes ++ [{ id := db.nextLikeId, user_id := uid, post_id := pid }] ∧
    (like_post db (some uid) (some pid) now).2.notifications =
      db.notifications := by
  obtain ⟨ha, hlk, _⟩ := like_post_like db uid pid now huid hpid hnolike
  refine ⟨ha, hlk, ?_⟩
  apply like_post_notifications_unchanged
  intro owner howner
  have hfind : db.posts.find? (fun p => p.id == (some pid).getD 0) = none := by
    refine List.find?_eq_none.mpr ?_
    intro p hp
    simpa using hnopost p hp
  rw [hfind] at howner
  exact Option.noConfusion howner

theorem like_post_nonexistent_post_witness :
    (∀ p ∈ initDB.posts, p.id ≠ 7) ∧ likeRowExists initDB 3 7 = false ∧
    ((like_post initDB (some 3) (some 7) 1).1 = .ok true ∧
     (like_post initDB (some 3) (some 7) 1).2.likes =
       initDB.likes ++ [{ id := initDB.nextLikeId, user_id := 3, post_id := 7 }] ∧
     (like_post initDB (some 3) (some 7) 1).2.notifications =
       initDB.notifications) :=
  ⟨by decide, by decide,
   like_post_nonexistent_post initDB 3 7 1 (by decide) (by decide)
     (by decide) (by decide)⟩


/-! ### Notification lemmas for the remaining handlers -/

theorem signup_notifications (hash : String → String) (db : DB)
    (u p : String) (now : Int) :
    (signup hash db u p now).2.notifications = db.notifications := by
  unfold signup
  dsimp only
  split
  · rfl
  · split
    · rfl
    · split
      · rfl
      · split
        · rfl
        · rfl

theorem create_post_notifications (db : DB) (uid : Nat) (media : String)
    (now : Int) :
    (create_post db uid media now).notifications = db.notifications := rfl

theorem add_comment_notifications_unchanged (db : DB) (a b : Option Nat)
    (t : String) (now : Int)
    (h : ∀ owner, db.posts.find? (fun p => p.id == b.getD 0) = some owner →
        owner.user_id = a.getD 0) :
    (add_comment db a b t now).2.notifications = db.notifications := by
  simp only [add_comment]
  split
  · rfl
  · rcases hfind : db.posts.find? (fun p => p.id == b.getD 0) with _ | owner
    · simp [hfind]
    · have howner := h owner hfind
      simp [hfind, howner]

theorem add_comment_notif_self_free (db : DB) (a b : Option Nat)
    (t : String) (now : Int) (n : Notification)
    (hn : n ∈ (add_comment db a b t now).2.notifications) :
    n ∈ db.notifications ∨ n.user_id ≠ n.from_user_id := by
  simp only [add_comment] at hn
  split at hn
  · exact Or.inl hn
  · rcases hfind : db.posts.find? (fun p => p.id == b.getD 0) with _ | owner
    · rw [hfind] at hn
      exact Or.inl hn
    · rw [hfind] at hn
      dsimp only at hn
      by_cases howner : owner.user_id = a.getD 0
      · rw [if_neg (by simpa using howner)] at hn
        exact Or.inl hn
      · rw [if_pos howner] at hn
        dsimp only at hn
        rcases List.mem_append.mp hn with hmem | hmem
        · exact Or.inl hmem
        · rcases List.mem_singleton.mp hmem with rfl
          exact Or.inr (by simpa using howner)

theorem toggle_follow_notif_self_free (db : DB) (a b : Option Nat)
    (now : Int) (n : Notification)
    (hn : n ∈ (toggle_follow db a b now).2.notifications) :
    n ∈ db.notifications ∨ n.user_id ≠ n.from_user_id := by
  unfold toggle_follow at hn
  split at hn
  · exact Or.inl hn
  · rename_i htruthy
    split at hn
    · exact Or.inl hn
    · rename_i hne
      dsimp only at hn
      split at hn
      · exact Or.inl hn
      · rcases List.mem_append.mp hn with hmem | hmem
        · exact Or.inl hmem
        · rcases List.mem_singleton.mp hmem with rfl
          refine Or.inr ?_
          dsimp only
          rcases a with _ | x
          · exact absurd (Or.inl (by simp [truthyId])) htruthy
          · rcases b with _ | y
            · exact absurd (Or.inr (by simp [truthyId])) htruthy
            · simpa using fun hyx => hne (by rw [hyx])

theorem mark_read_notif_fields (db : DB) (a b : Option Nat)
    (n : Notification)
    (hn : n ∈ (mark_notification_read db a b).2.notifications) :
    ∃ m ∈ db.notifications,
      n.user_id = m.user_id ∧ n.from_user_id = m.from_user_id := by
  unfold mark_notification_read at hn
  split at hn
  · exact ⟨n, hn, rfl, rfl⟩
  · dsimp only at hn
    split at hn
    · rcases List.mem_map.mp hn with ⟨m, hm, rfl⟩
      refine ⟨m, hm, ?_, ?_⟩ <;> split <;> rfl
    · rcases List.mem_map.mp hn with ⟨m, hm, rfl⟩
      refine ⟨m, hm, ?_, ?_⟩ <;> split <;> rfl


theorem toggle_follow_self (db : DB) (fid : Option Nat) (now : Int)
    (h : truthyId fid = true) :
    toggle_follow db fid fid now = (.cannotFollowSelf, db) := by
  unfold toggle_follow
  rw [if_neg (by simp [h]), if_pos rfl]

theorem step_notifSelfFree {d d' : DB} (hs : Step d d')
    (ih : notifSelfFree d) : notifSelfFree d' := by
  cases hs with
  | signup hash u p now =>
      intro n hn
      rw [signup_notifications] at hn
      exact ih n hn
  | createPost uid media now =>
      intro n hn
      rw [create_post_notifications] at hn
      exact ih n hn
  | like a b now =>
      intro n hn
      rcases like_post_notif_self_free d a b now n hn with hmem | hne
      · exact ih n hmem
      · exact hne
  | comment a b t now =>
      intro n hn
      rcases add_comment_notif_self_free d a b t now n hn with hmem | hne
      · exact ih n hmem
      · exact hne
  | follow a b now =>
      intro n hn
      rcases toggle_follow_notif_self_free d a b now n hn with hmem | hne
      · exact ih n hmem
      · exact hne
  | markRead a b =>
      intro n hn
      rcases mark_read_notif_fields d a b n hn with ⟨m, hm, hu, hf⟩
      rw [hu, hf]
      exact ih m hm

theorem reachable_notifSelfFree (db : DB) (h : Reachable db) :
    notifSelfFree db := by
  induction h with
  | init =>
      intro n hn
      cases hn
  | step hr hs ih =>
      exact step_notifSelfFree hs ih

/-- C2: in every reachable state every notification row has recipient ≠
actor; toggle_like and add_comment on a post the actor owns leave the
notifications table unchanged; and toggle_follow with
follower_id = following_id is rejected with the `Cannot follow yourself`
400 response before any state change. -/
theorem no_self_notifications (db : DB) (hreach : Reachable db) :
    notifSelfFree db ∧
    (∀ (db0 : DB) (fid : Option Nat) (now : Int), truthyId fid = true →
      toggle_follow db0 fid fid now = (.cannotFollowSelf, db0) ∧
      FollowResult.status .cannotFollowSelf = 400) ∧
    (∀ (db0 : DB) (uid pid : Nat) (t : String) (now : Int) (owner : Post),
      db0.posts.find? (fun p => p.id == pid) = some owner →
      owner.user_id = uid →
      (like_post db0 (some uid) (some pid) now).2.notifications =
        db0.notifications ∧
      (add_comment db0 (some uid) (some pid) t now).2.notifications =
        db0.notifications) := by
  refine ⟨reachable_notifSelfFree db hreach, ?_, ?_⟩
  · intro db0 fid now h
    exact ⟨toggle_follow_self db0 fid now h, rfl⟩
  · intro db0 uid pid t now owner hfind howner
    have hown : ∀ o, db0.posts.find?
        (fun p => p.id == (some pid : Option Nat).getD 0) = some o →
        o.user_id = (some uid : Option Nat).getD 0 := by
      intro o ho
      simp only [Option.getD_some] at ho ⊢
      rw [hfind] at ho
      exact (Option.some.inj ho) ▸ howner
    exact ⟨like_post_notifications_unchanged db0 (some uid) (some pid) now hown,
      add_comment_notifications_unchanged db0 (some uid) (some pid) t now hown⟩

theorem no_self_notifications_witness :
    notifSelfFree initDB ∧
    (∀ (db0 : DB) (fid : Option Nat) (now : Int), truthyId fid = true →
      toggle_follow db0 fid fid now = (.cannotFollowSelf, db0) ∧
      FollowResult.status .cannotFollowSelf = 400) ∧
    (∀ (db0 : DB) (uid pid : Nat) (t : String) (now : Int) (owner : Post),
      db0.posts.find? (fun p => p.id == pid) = some owner →
      owner.user_id = uid →
      (like_post db0 (some uid) (some pid) now).2.notifications =
        db0.notifications ∧
      (add_comment db0 (some uid) (some pid) t now).2.notifications =
        db0.notifications) :=
  no_self_notifications initDB Reachable.init


/-! ### Auth claims -/

/-- C3: signup with a (stripped) username shorter than 3 or longer than
30 characters, or a password shorter than 6 characters, fails with a
ValidationError (status 400) and changes nothing; otherwise, when the
username is available, it succeeds and returns exactly the public user
fields — the `PublicUser` record has no password field and carries no
hash. -/
theorem signup_spec (hash : String → String) (db : DB) (uraw pw : String)
    (now : Int) :
    ((strip uraw).length < 3 ∨ 30 < (strip uraw).length ∨ pw.length < 6 →
      (signup hash db uraw pw now).1.isValidationError = true ∧
      (signup hash db uraw pw now).1.status = 400 ∧
      (signup hash db uraw pw now).2 = db) ∧
    (3 ≤ (strip uraw).length → (strip uraw).length ≤ 30 → 6 ≤ pw.length →
      (∀ u ∈ db.users, u.username ≠ strip uraw) →
      signup hash db uraw pw now =
        (.ok { id := db.nextUserId, username := strip uraw, bio := none,
               profile_pic := none, created_at := now },
         { db with
             users := db.users ++
               [{ id := db.nextUserId, username := strip uraw,
                  password := hash pw, bio := none, profile_pic := none,
                  created_at := now }],
             nextUserId := db.nextUserId + 1 })) := by
  constructor
  · intro hcond
    simp only [signup]
    split_ifs with h1 h2 h3 h4
    · exact ⟨rfl, rfl, rfl⟩
    · exact ⟨rfl, rfl, rfl⟩
    · exact ⟨rfl, rfl, rfl⟩
    · exfalso
      rcases hcond with hc | hc | hc
      · exact h2 (Or.inl hc)
      · exact h2 (Or.inr hc)
      · exact h3 hc
    · exfalso
      rcases hcond with hc | hc | hc
      · exact h2 (Or.inl hc)
      · exact h2 (Or.inr hc)
      · exact h3 hc
  · intro h3l h30 h6 havail
    have hne1 : ¬(strip uraw = "" ∨ pw = "") := by
      rintro (h | h)
      · rw [h] at h3l
        exact absurd h3l (by decide)
      · rw [h] at h6
        exact absurd h6 (by decide)
    have hfind : db.users.find? (fun u => u.username == strip uraw) = none :=
      List.find?_eq_none.mpr (fun u hu => by simpa using havail u hu)
    simp only [signup]
    rw [if_neg hne1, if_neg (by omega), if_neg (by omega),
      if_neg (by simp [hfind])]

theorem signup_spec_witness :
    ((signup (fun s => s) initDB "ab" "secret" 0).1.isValidationError = true ∧
     (signup (fun s => s) initDB "ab" "secret" 0).1.status = 400 ∧
     (signup (fun s => s) initDB "ab" "secret" 0).2 = initDB) ∧
    signup (fun s => s) initDB "bob" "secret" 0 =
      (.ok { id := initDB.nextUserId, username := strip "bob", bio := none,
             profile_pic := none, created_at := 0 },
       { initDB with
           users := initDB.users ++
             [{ id := initDB.nextUserId, username := strip "bob",
                password := (fun s : String => s) "secret", bio := none,
                profile_pic := none, created_at := 0 }],
           nextUserId := initDB.nextUserId + 1 }) :=
  ⟨(signup_spec (fun s => s) initDB "ab" "secret" 0).1 (by decide),
   (signup_spec (fun s => s) initDB "bob" "secret" 0).2 (by decide) (by decide)
     (by decide) (by decide)⟩


/-- C4: when a user with exactly the supplied username already exists
(exact, case-sensitive string equality), a well-formed signup request
with that username fails with the `Username already exists` / 400
conflict response and leaves the users table unchanged. -/
theorem signup_duplicate_username (hash : String → String) (db : DB)
    (uname pw : String) (now : Int)
    (hs : strip uname = uname) (h3 : 3 ≤ uname.length)
    (h30 : uname.length ≤ 30) (h6 : 6 ≤ pw.length)
    (hex : ∃ u ∈ db.users, u.username = uname) :
    signup hash db uname pw now = (.usernameExists, db) ∧
    SignupResult.status .usernameExists = 400 ∧
    SignupResult.errorMsg .usernameExists =
      some "Username already exists" ∧
    (signup hash db uname pw now).2.users = db.users := by
  have hne1 : ¬(uname = "" ∨ pw = "") := by
    rintro (h | h)
    · rw [h] at h3
      exact absurd h3 (by decide)
    · rw [h] at h6
      exact absurd h6 (by decide)
  have hfind : (db.users.find? (fun u => u.username == uname)).isSome := by
    rcases hex with ⟨u, hu, hname⟩
    exact List.find?_isSome.mpr ⟨u, hu, by simp [hname]⟩
  have hmain : signup hash db uname pw now = (.usernameExists, db) := by
    simp only [signup, hs]
    rw [if_neg hne1, if_neg (by omega), if_neg (by omega), if_pos hfind]
  exact ⟨hmain, rfl, rfl, by rw [hmain]⟩

theorem signup_duplicate_username_witness :
    strip "alice" = "alice" ∧
    (∃ u ∈ (signup (fun s => s) initDB "alice" "secret1" 0).2.users,
      u.username = "alice") ∧
    (signup (fun s => s) ((signup (fun s => s) initDB "alice" "secret1" 0).2)
        "alice" "secret1" 1 =
      (.usernameExists, (signup (fun s => s) initDB "alice" "secret1" 0).2) ∧
     SignupResult.status .usernameExists = 400 ∧
     SignupResult.errorMsg .usernameExists =
       some "Username already exists" ∧
     (signup (fun s => s) ((signup (fun s => s) initDB "alice" "secret1" 0).2)
         "alice" "secret1" 1).2.users =
       (signup (fun s => s) initDB "alice" "secret1" 0).2.users) :=
  ⟨by decide, by decide,
   signup_duplicate_username (fun s => s)
     ((signup (fun s => s) initDB "alice" "secret1" 0).2) "alice" "secret1" 1
     (by decide) (by decide) (by decide) (by decide) (by decide)⟩

/-- C5: a login request with both fields present fails with the single
`Invalid credentials` / 401 response whenever the username matches no
user row or the stored hash differs from the hash of the supplied
password, and the response is identical across any two such failing
requests, so the caller cannot tell whether the username existed. -/
theorem login_uniform_failure (hash : String → String) (db : DB)
    (u1 p1 u2 p2 : String)
    (h1u : strip u1 ≠ "") (h1p : p1 ≠ "")
    (h2u : strip u2 ≠ "") (h2p : p2 ≠ "")
    (h1 : loginRejects hash db u1 p1) (h2 : loginRejects hash db u2 p2) :
    login hash db u1 p1 = .invalidCredentials ∧
    login hash db u2 p2 = login hash db u1 p1 ∧
    (login hash db u1 p1).status = 401 ∧
    (login hash db u1 p1).errorMsg = some "Invalid credentials" := by
  have key : ∀ u p : String, strip u ≠ "" → p ≠ "" →
      loginRejects hash db u p → login hash db u p = .invalidCredentials := by
    intro u p hu hp hrej
    simp only [login]
    rw [if_neg (by simp [hu, hp])]
    rcases hf : db.users.find? (fun x => x.username == strip u) with _ | usr
    · rw [hf]
    · rw [hf]
      exact if_pos (hrej usr hf)
  have e1 := key u1 p1 h1u h1p h1
  have e2 := key u2 p2 h2u h2p h2
  rw [e1, e2]
  exact ⟨rfl, rfl, rfl, rfl⟩

theorem login_uniform_failure_witness :
    strip "alice" ≠ "" ∧ strip "nobody" ≠ "" ∧
    loginRejects (fun s => s)
      ((signup (fun s => s) initDB "alice" "secret1" 0).2) "alice" "wrong1" ∧
    loginRejects (fun s => s)
      ((signup (fun s => s) initDB "alice" "secret1" 0).2) "nobody" "wrong2" ∧
    (login (fun s => s) ((signup (fun s => s) initDB "alice" "secret1" 0).2)
        "alice" "wrong1" = .invalidCredentials ∧
     login (fun s => s) ((signup (fun s => s) initDB "alice" "secret1" 0).2)
         "nobody" "wrong2" =
       login (fun s => s) ((signup (fun s => s) initDB "alice" "secret1" 0).2)
         "alice" "wrong1" ∧
     (login (fun s => s) ((signup (fun s => s) initDB "alice" "secret1" 0).2)
         "alice" "wrong1").status = 401 ∧
     (login (fun s => s) ((signup (fun s => s) initDB "alice" "secret1" 0).2)
         "alice" "wrong1").errorMsg = some "Invalid credentials") :=
  ⟨by decide, by decide, by decide, by decide,
   login_uniform_failure (fun s => s)
     ((signup (fun s => s) initDB "alice" "secret1" 0).2)
     "alice" "wrong1" "nobody" "wrong2"
     (by decide) (by decide) (by decide) (by decide) (by decide) (by decide)⟩


/-- C9: signup and login strip leading/trailing whitespace from the
username before anything else: a whitespace-only username is rejected as
a missing field (400) by both; signup's 3-30 length check reads the
stripped username; on success the stored row and the returned user carry
exactly the stripped username; and login matches users against the
stripped username. -/
theorem auth_username_stripped (hash : String → String) (db : DB)
    (uraw pw : String) (now : Int) :
    (strip uraw = "" →
      signup hash db uraw pw now = (.missingFields, db) ∧
      login hash db uraw pw = .missingFields ∧
      SignupResult.status .missingFields = 400 ∧
      LoginResult.status .missingFields = 400) ∧
    (pw ≠ "" → strip uraw ≠ "" →
      ((strip uraw).length < 3 ∨ 30 < (strip uraw).length) →
      (signup hash db uraw pw now).1 = .badUsernameLength) ∧
    (∀ pu db', signup hash db uraw pw now = (.ok pu, db') →
      pu.username = strip uraw ∧
      db'.users = db.users ++
        [{ id := db.nextUserId, username := strip uraw,
           password := hash pw, bio := none, profile_pic := none,
           created_at := now }]) ∧
    (∀ pu, login hash db uraw pw = .ok pu →
      ∃ u ∈ db.users, u.username = strip uraw ∧
        pu.username = u.username) := by
  refine ⟨?_, ?_, ?_, ?_⟩
  · intro hws
    refine ⟨?_, ?_, rfl, rfl⟩
    · simp only [signup]
      rw [if_pos (Or.inl hws)]
    · simp only [login]
      rw [if_pos (Or.inl hws)]
  · intro hpw hus hlen
    simp only [signup]
    rw [if_neg (by simp [hus, hpw]), if_pos (by omega)]
  · intro pu db' h
    simp only [signup] at h
    split_ifs at h with h1 h2 h3 h4
    · exact SignupResult.noConfusion (congrArg Prod.fst h)
    · exact SignupResult.noConfusion (congrArg Prod.fst h)
    · exact SignupResult.noConfusion (congrArg Prod.fst h)
    · exact SignupResult.noConfusion (congrArg Prod.fst h)
    · have hfst := congrArg Prod.fst h
      have hsnd := congrArg Prod.snd h
      simp only at hfst hsnd
      constructor
      · rw [← SignupResult.ok.inj hfst]
      · rw [← hsnd]
  · intro pu h
    simp only [login] at h
    by_cases h1 : strip uraw = "" ∨ pw = ""
    · rw [if_pos h1] at h
      exact LoginResult.noConfusion h
    · rw [if_neg h1] at h
      rcases hf : db.users.find? (fun x => x.username == strip uraw)
        with _ | u
      · rw [hf] at h
        exact LoginResult.noConfusion h
      · rw [hf] at h
        dsimp only at h
        by_cases hpw : u.password ≠ hash pw
        · rw [if_pos hpw] at h
          exact LoginResult.noConfusion h
        · rw [if_neg hpw] at h
          refine ⟨u, List.mem_of_find?_eq_some hf, ?_, ?_⟩
          · simpa using List.find?_some hf
          · rw [← LoginResult.ok.inj h]

theorem auth_username_stripped_witness :
    (strip "   " = "" →
      signup (fun s => s) initDB "   " "secret1" 0 =
        (.missingFields, initDB) ∧
      login (fun s => s) initDB "   " "secret1" = .missingFields ∧
      SignupResult.status .missingFields = 400 ∧
      LoginResult.status .missingFields = 400) ∧
    ("secret1" ≠ "" → strip "   " ≠ "" →
      ((strip "   ").length < 3 ∨ 30 < (strip "   ").length) →
      (signup (fun s => s) initDB "   " "secret1" 0).1 =
        .badUsernameLength) ∧
    (∀ pu db', signup (fun s => s) initDB "   " "secret1" 0 = (.ok pu, db') →
      pu.username = strip "   " ∧
      db'.users = initDB.users ++
        [{ id := initDB.nextUserId, username := strip "   ",
           password := (fun s : String => s) "secret1", bio := none,
           profile_pic := none, created_at := 0 }]) ∧
    (∀ pu, login (fun s => s) initDB "   " "secret1" = .ok pu →
      ∃ u ∈ initDB.users, u.username = strip "   " ∧
        pu.username = u.username) :=
  auth_username_stripped (fun s => s) initDB "   " "secret1" 0


/-! ### Comments -/

theorem add_comment_ok (db : DB) (uid pid : Nat) (traw : String) (now : Int)
    (huid : uid ≠ 0) (hpid : pid ≠ 0) (htext : strip traw ≠ "") :
    (add_comment db (some uid) (some pid) traw now).1 =
      .ok { id := db.nextCommentId, created_at := now } ∧
    (add_comment db (some uid) (some pid) traw now).2.comments =
      db.comments ++
        [{ id := db.nextCommentId, user_id := uid, post_id := pid,
           text := takeChars 500 (strip traw), created_at := now }] := by
  rcases hfind : db.posts.find? (fun p => p.id == pid) with _ | owner
  · simp [add_comment, truthyId, huid, hpid, htext, hfind]
  · by_cases howner : owner.user_id = uid
    · simp [add_comment, truthyId, huid, hpid, htext, hfind, howner]
    · simp [add_comment, truthyId, huid, hpid, htext, hfind, howner]

/-- C6: a comment request whose stripped text is non-empty is never
rejected: the text is truncated to its first 500 characters and the
comment inserted, and the response returns the created row's id and
timestamp; only an (all-whitespace or) empty text fails, with the 400
missing-fields response. -/
theorem add_comment_truncates (db : DB) (uid pid : Nat) (traw : String)
    (now : Int) (huid : uid ≠ 0) (hpid : pid ≠ 0) :
    (strip traw = "" →
      add_comment db (some uid) (some pid) traw now = (.missingFields, db) ∧
      CommentResult.status .missingFields = 400) ∧
    (strip traw ≠ "" →
      (add_comment db (some uid) (some pid) traw now).1 =
        .ok { id := db.nextCommentId, created_at := now } ∧
      (add_comment db (some uid) (some pid) traw now).2.comments =
        db.comments ++
          [{ id := db.nextCommentId, user_id := uid, post_id := pid,
             text := takeChars 500 (strip traw), created_at := now }] ∧
      (takeChars 500 (strip traw)).length ≤ 500) := by
  constructor
  · intro hempty
    constructor
    · simp only [add_comment]
      rw [if_pos (Or.inr (Or.inr hempty))]
    · rfl
  · intro htext
    obtain ⟨h1, h2⟩ := add_comment_ok db uid pid traw now huid hpid htext
    refine ⟨h1, h2, ?_⟩
    show (List.take 500 (strip traw).data).length ≤ 500
    rw [List.length_take]
    exact min_le_left _ _

theorem add_comment_truncates_witness :
    (strip " hi " = "" →
      add_comment initDB (some 1) (some 2) " hi " 0 =
        (.missingFields, initDB) ∧
      CommentResult.status .missingFields = 400) ∧
    (strip " hi " ≠ "" →
      (add_comment initDB (some 1) (some 2) " hi " 0).1 =
        .ok { id := initDB.nextCommentId, created_at := 0 } ∧
      (add_comment initDB (some 1) (some 2) " hi " 0).2.comments =
        initDB.comments ++
          [{ id := initDB.nextCommentId, user_id := 1, post_id := 2,
             text := takeChars 500 (strip " hi "), created_at := 0 }] ∧
      (takeChars 500 (strip " hi ")).length ≤ 500) :=
  add_comment_truncates initDB 1 2 " hi " 0 (by decide) (by decide)


/-! ### Feed -/

theorem map_annotate_post (db : DB) (l : List Post) :
    l.map (fun p => (annotate db p).post) = l := by
  induction l with
  | nil => rfl
  | cons a t ih =>
      rw [List.map_cons, ih]
      rfl

/-- C7: the feed holds at most 50 items, is ordered by descending
creation time, and every item is a post authored by the user or by
someone the user follows; for a user who follows no one (and exists, so
the author join keeps their rows) whose own posts fit in the limit, the
feed is exactly that user's own posts. -/
theorem get_feed_spec (db : DB) (uid : Nat) :
    (get_feed db uid).length ≤ 50 ∧
    List.Pairwise (fun a b => b.post.created_at ≤ a.post.created_at)
      (get_feed db uid) ∧
    (∀ it ∈ get_feed db uid,
      it.post ∈ db.posts ∧
      (it.post.user_id = uid ∨
        ∃ f ∈ db.follows,
          f.follower_id = uid ∧ f.following_id = it.post.user_id)) ∧
    ((∀ f ∈ db.follows, f.follower_id ≠ uid) →
      (∃ u ∈ db.users, u.id = uid) →
      (db.posts.filter (fun p => p.user_id == uid)).length ≤ 50 →
      ((get_feed db uid).map (·.post)).Perm
        (db.posts.filter (fun p => p.user_id == uid))) := by
  refine ⟨?_, ?_, ?_, ?_⟩
  · unfold get_feed
    rw [List.length_map, List.length_take]
    exact min_le_left _ _
  · have hs : List.Pairwise newestFirst
        (List.insertionSort newestFirst (feedPosts db uid)) :=
      List.sorted_insertionSort newestFirst (feedPosts db uid)
    have ht : List.Pairwise newestFirst
        ((List.insertionSort newestFirst (feedPosts db uid)).take 50) :=
      hs.sublist (List.take_sublist 50 _)
    unfold get_feed
    exact List.pairwise_map.mpr ht
  · intro it hit
    unfold get_feed at hit
    rcases List.mem_map.mp hit with ⟨p, hp, rfl⟩
    have hp2 : p ∈ List.insertionSort newestFirst (feedPosts db uid) :=
      List.take_subset 50 _ hp
    have hp3 : p ∈ feedPosts db uid :=
      (List.mem_insertionSort newestFirst).mp hp2
    rcases List.mem_filter.mp hp3 with ⟨hmem, hcond⟩
    have hauth := (Bool.and_eq_true_iff.mp hcond).1
    refine ⟨hmem, ?_⟩
    rcases Bool.or_eq_true_iff.mp hauth with hown | hfol
    · exact Or.inl (by simpa using hown)
    · rcases List.any_eq_true.mp hfol with ⟨f, hf, hff⟩
      rcases Bool.and_eq_true_iff.mp hff with ⟨hf1, hf2⟩
      exact Or.inr ⟨f, hf, by simpa using hf1, by simpa using hf2⟩
  · intro hnof hexu hlen
    have hcong : feedPosts db uid =
        db.posts.filter (fun p => p.user_id == uid) := by
      unfold feedPosts
      apply List.filter_congr
      intro p _
      cases hpu : (p.user_id == uid) with
      | false =>
          have hany : db.follows.any
              (fun f => f.follower_id == uid && f.following_id == p.user_id)
              = false := by
            refine List.any_eq_false.mpr ?_
            intro f hf hcontra
            have hf1 := (Bool.and_eq_true_iff.mp hcontra).1
            exact hnof f hf (by simpa using hf1)
          rw [hany]
          simp
      | true =>
          have hpu2 : p.user_id = uid := by simpa using hpu
          have husers : db.users.any (fun u => u.id == p.user_id) = true := by
            rcases hexu with ⟨u, hu, huid2⟩
            exact List.any_eq_true.mpr ⟨u, hu, by simp [huid2, hpu2]⟩
          rw [husers]
          simp
    have hlen2 : (List.insertionSort newestFirst (feedPosts db uid)).length
        ≤ 50 := by
      rw [List.length_insertionSort, hcong]
      exact hlen
    have htake : (List.insertionSort newestFirst (feedPosts db uid)).take 50 =
        List.insertionSort newestFirst (feedPosts db uid) :=
      List.take_of_length_le hlen2
    have hmapeq : (get_feed db uid).map (·.post) =
        List.insertionSort newestFirst (feedPosts db uid) := by
      unfold get_feed
      rw [htake, List.map_map]
      exact map_annotate_post db _
    rw [hmapeq, hcong]
    exact List.perm_insertionSort newestFirst _

theorem get_feed_spec_witness :
    (get_feed initDB 1).length ≤ 50 ∧
    List.Pairwise (fun a b => b.post.created_at ≤ a.post.created_at)
      (get_feed initDB 1) ∧
    (∀ it ∈ get_feed initDB 1,
      it.post ∈ initDB.posts ∧
      (it.post.user_id = 1 ∨
        ∃ f ∈ initDB.follows,
          f.follower_id = 1 ∧ f.following_id = it.post.user_id)) ∧
    ((∀ f ∈ initDB.follows, f.follower_id ≠ 1) →
      (∃ u ∈ initDB.users, u.id = 1) →
      (initDB.posts.filter (fun p => p.user_id == 1)).length ≤ 50 →
      ((get_feed initDB 1).map (·.post)).Perm
        (initDB.posts.filter (fun p => p.user_id == 1))) :=
  get_feed_spec initDB 1


/-! ### Notifications: mark read -/

theorem forall₂_map_self {α : Type} (l : List α) (f : α → α)
    (R : α → α → Prop) (h : ∀ a, R a (f a)) :
    List.Forall₂ R l (l.map f) := by
  induction l with
  | nil => exact List.Forall₂.nil
  | cons a t ih => exact List.Forall₂.cons (h a) ih

theorem map_id_of_mem {α : Type} (l : List α) (f : α → α)
    (h : ∀ a ∈ l, f a = a) : l.map f = l := by
  induction l with
  | nil => rfl
  | cons a t ih =>
      rw [List.map_cons, h a (List.mem_cons_self a t),
        ih (fun x hx => h x (List.mem_cons_of_mem a hx))]


/-- C8: `mark_read` without an id sets `read` on exactly the requesting
user's notifications and changes nothing else; with a (nonzero) id it
sets `read` only on that row and only when the requester owns it, and
when the id belongs to no row of the requester the database is untouched;
in both calls every other field and every other table is unchanged. -/
theorem mark_read_frame (db : DB) (uid nid : Nat)
    (huid : uid ≠ 0) (hnid : nid ≠ 0) :
    ((mark_notification_read db (some uid) none).1 = .ok ∧
     (mark_notification_read db (some uid) none).2.users = db.users ∧
     (mark_notification_read db (some uid) none).2.posts = db.posts ∧
     (mark_notification_read db (some uid) none).2.likes = db.likes ∧
     (mark_notification_read db (some uid) none).2.comments = db.comments ∧
     (mark_notification_read db (some uid) none).2.follows = db.follows ∧
     List.Forall₂ (readFlipOnly (fun n => n.user_id == uid))
       db.notifications
       (mark_notification_read db (some uid) none).2.notifications) ∧
    ((mark_notification_read db (some uid) (some nid)).1 = .ok ∧
     (mark_notification_read db (some uid) (some nid)).2.users = db.users ∧
     (mark_notification_read db (some uid) (some nid)).2.posts = db.posts ∧
     (mark_notification_read db (some uid) (some nid)).2.likes = db.likes ∧
     (mark_notification_read db (some uid) (some nid)).2.comments =
       db.comments ∧
     (mark_notification_read db (some uid) (some nid)).2.follows =
       db.follows ∧
     List.Forall₂ (readFlipOnly (fun n => n.id == nid && n.user_id == uid))
       db.notifications
       (mark_notification_read db (some uid) (some nid)).2.notifications) ∧
    ((∀ n ∈ db.notifications, n.id = nid → n.user_id ≠ uid) →
      (mark_notification_read db (some uid) (some nid)).2 = db) := by
  have hu : ¬¬(truthyId (some uid) = true) := by simp [truthyId, huid]
  have emain : mark_notification_read db (some uid) none =
      (.ok, { db with notifications :=
        db.notifications.map (fun n =>
          if n.user_id == uid then { n with read := true } else n) }) := by
    simp only [mark_notification_read]
    rw [if_neg hu]
    rfl
  have esingle : mark_notification_read db (some uid) (some nid) =
      (.ok, { db with notifications :=
        db.notifications.map (fun n =>
          if n.id == nid && n.user_id == uid then { n with read := true }
          else n) }) := by
    simp only [mark_notification_read]
    rw [if_neg hu, if_pos (by simp [truthyId, hnid])]
    rfl
  refine ⟨?_, ?_, ?_⟩
  · rw [emain]
    refine ⟨rfl, rfl, rfl, rfl, rfl, rfl, ?_⟩
    apply forall₂_map_self
    intro n
    unfold readFlipOnly
    cases hc : (n.user_id == uid) <;> simp [hc]
  · rw [esingle]
    refine ⟨rfl, rfl, rfl, rfl, rfl, rfl, ?_⟩
    apply forall₂_map_self
    intro n
    unfold readFlipOnly
    cases hc : (n.id == nid && n.user_id == uid) <;> simp [hc]
  · intro hothers
    rw [esingle]
    have hmap : db.notifications.map (fun n =>
        if n.id == nid && n.user_id == uid then { n with read := true }
        else n) = db.notifications := by
      apply map_id_of_mem
      intro n hn
      have hcond : (n.id == nid && n.user_id == uid) = false := by
        by_cases h1 : n.id = nid
        · have h2 := hothers n hn h1
          simp [h2]
        · simp [h1]
      rw [if_neg (by simp [hcond])]
    rw [hmap]

theorem mark_read_frame_witness :
    ((mark_notification_read initDB (some 1) none).1 = .ok ∧
     (mark_notification_read initDB (some 1) none).2.users = initDB.users ∧
     (mark_notification_read initDB (some 1) none).2.posts = initDB.posts ∧
     (mark_notification_read initDB (some 1) none).2.likes = initDB.likes ∧
     (mark_notification_read initDB (some 1) none).2.comments =
       initDB.comments ∧
     (mark_notification_read initDB (some 1) none).2.follows =
       initDB.follows ∧
     List.Forall₂ (readFlipOnly (fun n => n.user_id == 1))
       initDB.notifications
       (mark_notification_read initDB (some 1) none).2.notifications) ∧
    ((mark_notification_read initDB (some 1) (some 5)).1 = .ok ∧
     (mark_notification_read initDB (some 1) (some 5)).2.users =
       initDB.users ∧
     (mark_notification_read initDB (some 1) (some 5)).2.posts =
       initDB.posts ∧
     (mark_notification_read initDB (some 1) (some 5)).2.likes =
       initDB.likes ∧
     (mark_notification_read initDB (some 1) (some 5)).2.comments =
       initDB.comments ∧
     (mark_notification_read initDB (some 1) (some 5)).2.follows =
       initDB.follows ∧
     List.Forall₂ (readFlipOnly (fun n => n.id == 5 && n.user_id == 1))
       initDB.notifications
       (mark_notification_read initDB (some 1) (some 5)).2.notifications) ∧
    ((∀ n ∈ initDB.notifications, n.id = 5 → n.user_id ≠ 1) →
      (mark_notification_read initDB (some 1) (some 5)).2 = initDB) :=
  mark_read_frame initDB 1 5 (by decide) (by decide)

end Inko
